import Mathlib

/-!
Shallow embedding of the UAST-function component of gitbase
(src/internal/function/uast.go), used to check the natural-language
specification against the code.

Go byte slices are `List Nat` (byte values), Go strings are `String`,
machine 64-bit values are `Nat` taken modulo `2 ^ 64` where it matters.
External collaborators (the bblfsh parser, the xpath evaluator, the
uast-SDK node accessors) are parameters of the embedding, following the
interfaces the source uses.
-/

namespace Gitbase

/-- Go byte slice. -/
abbrev Bytes := List Nat

/-- A parsed tree node, the tagged-variant view of `nodes.Node` from the
bblfsh SDK: an object is an ordered mapping of string keys to child
values, an array is an ordered sequence, a scalar is a string, integer
or boolean value, and `nilN` is a Go `nil` node. -/
inductive Node where
  | obj : List (String × Node) → Node
  | arr : List Node → Node
  | str : String → Node
  | intV : Int → Node
  | boolV : Bool → Node
  | nilN : Node

/-- An object node's ordered key/value entries (`nodes.Object`). -/
abbrev Obj := List (String × Node)

/-- Go map indexing `node[key]`: the value stored under `key`, if any. -/
def lookupObj (o : Obj) (key : String) : Option Node :=
  match o with
  | [] => none
  | (k, v) :: rest => if k = key then some v else lookupObj rest key

/-! ## Configuration parsing (uast.go lines 24-30 and 73-86) -/

/-- `GITBASE_UAST_CACHE_SIZE` (uast.go line 25). -/
def uastCacheSizeKey : String := "GITBASE_UAST_CACHE_SIZE"

/-- Default tree-cache capacity (uast.go line 26). -/
def defaultUASTCacheSize : Int := 10000

/-- `GITBASE_MAX_UAST_BLOB_SIZE` (uast.go line 28). -/
def uastMaxBlobSizeKey : String := "GITBASE_MAX_UAST_BLOB_SIZE"

/-- Default maximum blob size, 5 MB (uast.go line 29). -/
def defaultUASTMaxBlobSize : Int := 5 * 1024 * 1024

/-- Go `strconv.Atoi`: an optional sign followed by at least one digit,
all digits, within the 64-bit signed range; anything else is an error
(`none`).  An out-of-range numeral is an error too (`strconv.ErrRange`
makes `err != nil`, which is all the call sites look at). -/
def goAtoi (s : String) : Option Int :=
  let signAndDigits : Int × List Char :=
    match s.data with
    | '+' :: rest => (1, rest)
    | '-' :: rest => (-1, rest)
    | cs => (1, cs)
  let sign := signAndDigits.1
  let digits := signAndDigits.2
  if digits.isEmpty then none
  else if digits.all Char.isDigit then
    let n : Nat := digits.foldl (fun acc c => acc * 10 + (c.toNat - 48)) 0
    let v : Int := sign * (n : Int)
    if v < -(2 ^ 63) ∨ v > 2 ^ 63 - 1 then none else some v
  else none

/-- The tree-cache capacity computed by `init` (uast.go lines 74-80) from
the value of the `GITBASE_UAST_CACHE_SIZE` environment variable (an unset
variable reads as `""`): on a parse error or a non-positive value it
falls back to the default. -/
def initUASTCacheSize (envValue : String) : Int :=
  match goAtoi envValue with
  | none => defaultUASTCacheSize
  | some size => if size ≤ 0 then defaultUASTCacheSize else size

/-- The maximum blob size computed by `init` (uast.go lines 82-85) from
the `GITBASE_MAX_UAST_BLOB_SIZE` environment variable: on a parse error
it falls back to the default; a parsed value is kept as-is, including a
negative one (which disables the size check). -/
def initUASTMaxBlobSize (envValue : String) : Int :=
  match goAtoi envValue with
  | none => defaultUASTMaxBlobSize
  | some size => size

/-! ## Lazy cache creation (uast.go lines 61-71)

`getUASTCache` holds a process-wide slot `uastCache`, initially `nil`,
and creates the cache on first use only; the dispose function is
ignored, so the model offers no operation that empties the slot.  The
slot is threaded explicitly: the function returns the cache together
with the updated slot. -/

/-- `getUASTCache` over an explicit slot: create the cache via `mk` only
when the slot is empty, and return the (possibly just created) cache
together with the new slot contents. -/
def getUASTCacheOnce {κ : Type} (slot : Option κ) (mk : Int → κ) (size : Int) :
    κ × Option κ :=
  match slot with
  | some c => (c, some c)
  | none =>
    let c := mk size
    (c, some c)

/-! ## Fingerprinting

`uastFunc.computeKey` (uast.go lines 248-253) locks the shared stateful
64-bit hash object and calls the helper `computeKey(h, mode, lang, blob)`.
That helper lives in this repository outside src/.

Modelled from the spec: the Fingerprinter combines a parse mode, a
language tag and raw content into a single 64-bit value, pure and
deterministic; the shared hash object is reset before every use, so the
result does not depend on the hash state left by earlier calls.  The
hash primitive itself is external; it is modelled as a 64-bit
fold over the bytes of mode, language and content in that order. -/

/-- The stateful 64-bit hash object (`hash.Hash64`). -/
structure Hash64 where
  acc : Nat

/-- Reset the hash object to its initial state. -/
def hashReset (_ : Hash64) : Hash64 := ⟨14695981039346656037⟩

/-- Absorb one byte into the hash state, modulo `2 ^ 64`. -/
def hashWriteByte (h : Hash64) (b : Nat) : Hash64 :=
  ⟨((h.acc ^^^ b % 256) * 1099511628211) % 2 ^ 64⟩

/-- Absorb a byte sequence into the hash state. -/
def hashWrite (h : Hash64) (bs : Bytes) : Hash64 :=
  bs.foldl hashWriteByte h

/-- The current 64-bit digest of the hash object. -/
def hashSum64 (h : Hash64) : Nat := h.acc % 2 ^ 64

/-- The byte view of a string fed to the hash. -/
def strBytes (s : String) : Bytes := s.data.map Char.toNat

/-- Modelled from the spec: the key-computation helper `computeKey(h,
mode, lang, blob)` (called by `uastFunc.computeKey`, uast.go line 252;
the helper itself is repository code outside src/).  It resets the
shared hash object, writes the mode, the language and the content into
it, and returns the 64-bit digest together with the hash state it leaves
behind. -/
def computeKeyH (h : Hash64) (mode lang : String) (blob : Bytes) : Nat × Hash64 :=
  let h := hashReset h
  let h := hashWrite h (strBytes mode)
  let h := hashWrite h (strBytes lang)
  let h := hashWrite h blob
  (hashSum64 h, h)

/-- The pure fingerprint of a `(mode, language, content)` triple: the
digest computed from a freshly reset hash object. -/
def computeKey (mode lang : String) (blob : Bytes) : Nat :=
  (computeKeyH ⟨0⟩ mode lang blob).1

/-! ## The parse orchestrator (`uastFunc.getUAST`, uast.go lines 255-314) -/

/-- The bblfsh parse mode (`bblfsh.Mode`). -/
inductive Mode where
  | semantic
  | annotated
  | native
deriving DecidableEq

/-- `mode.String()` as used when fingerprinting (uast.go line 263). -/
def Mode.str : Mode → String
  | .semantic => "semantic"
  | .annotated => "annotated"
  | .native => "native"

/-- The classified outcome of one call to the external parser
(`getUASTFromBblfsh`): a parsed tree, a soft failure (`ErrParseBlob` or
`derrors.ErrSyntax`: no recognized syntax or a syntax error in the
content), or a hard failure (transport, protocol or internal parser
error) carrying its message. -/
inductive ParseOutcome where
  | parsed : Node → ParseOutcome
  | soft : String → ParseOutcome
  | hard : String → ParseOutcome

/-- One parse request issued to the external parser: content bytes,
language and mode. -/
abbrev ParseReq := Bytes × String × Mode

/-- The external collaborators `getUAST` uses: the parser and the
xpath (path-query) evaluator, which returns the matching nodes or an
error message. -/
structure UastEnv where
  parse : Bytes → String → Mode → ParseOutcome
  xpath : Node → String → Except String (List Node)

/-- The tree cache contents: fingerprint-keyed entries.  Eviction is the
cache capability's own business and is not modelled; `Get` and `Put`
are. -/
abbrev Cache := List (Nat × Node)

/-- `uastCache.Get key` (uast.go line 271): the stored tree, or a miss. -/
def cacheGet (c : Cache) (key : Nat) : Option Node :=
  match c with
  | [] => none
  | (k, v) :: rest => if k = key then some v else cacheGet rest key

/-- `uastCache.Put key node` (uast.go line 286): store the tree under
the fingerprint, replacing any previous entry. -/
def cachePut (c : Cache) (key : Nat) (node : Node) : Cache :=
  (key, node) :: c.filter (fun kv => kv.1 ≠ key)

/-- Modelled from the spec: `marshalNodes` (repository code outside
src/) serializes a node sequence into an opaque, self-describing
encoding, and an empty sequence serializes to null ("no information
available").  The encoding is injective, so it is represented here by
the node sequence itself. -/
def marshalNodes (arr : List Node) : Option (List Node) :=
  if arr.isEmpty then none else some arr

/-- The xpath-filter step of `getUAST` (uast.go lines 291-302): an empty
query wraps the node itself as a one-element sequence; otherwise the
external evaluator runs, and an evaluator error is logged and resolved
to null (`none`) instead of being propagated. -/
def filterByXPath (ev : Node → String → Except String (List Node))
    (node : Node) (xpath : String) : Option (List Node) :=
  if xpath = "" then some [node]
  else
    match ev node xpath with
    | .ok ns => some ns
    | .error _ => none

/-- What one `getUAST` call produces: the returned value (`ok none` is
SQL null), the tree cache it leaves behind, and the parse requests it
issued to the external parser. -/
structure GetUASTOut where
  result : Except String (Option (List Node))
  cache : Cache
  parseReqs : List ParseReq

/-- `uastFunc.getUAST` (uast.go lines 255-314): fingerprint the request,
consult the tree cache, on a miss call the external parser (a soft
failure returns null uncached, a hard failure propagates, a parsed tree
is stored), then filter by the query expression and marshal the result;
filter and marshal failures resolve to null. -/
def getUAST (env : UastEnv) (cache : Cache) (blob : Bytes)
    (lang xpath : String) (mode : Mode) : GetUASTOut :=
  let key := computeKey mode.str lang blob
  match cacheGet cache key with
  | some node =>
    ⟨.ok (Option.bind (filterByXPath env.xpath node xpath) marshalNodes), cache, []⟩
  | none =>
    match env.parse blob lang mode with
    | .soft _ => ⟨.ok none, cache, [(blob, lang, mode)]⟩
    | .hard e => ⟨.error e, cache, [(blob, lang, mode)]⟩
    | .parsed node =>
      ⟨.ok (Option.bind (filterByXPath env.xpath node xpath) marshalNodes),
        cachePut cache key node, [(blob, lang, mode)]⟩

/-! ## The evaluation entry of uast and uast_mode
(`uastFunc.Eval`, uast.go lines 175-246) -/

/-- Go `strings.ToLower` (per-rune lowering), applied to the language
argument at uast.go line 238. -/
def goToLower (s : String) : String := ⟨s.data.map Char.toLower⟩

/-- The warning emitted when content exceeds the configured ceiling
(uast.go lines 215-229); it names the configuration key. -/
def oversizeWarning : String :=
  "uast will be skipped, file is too big to send to bblfsh." ++
    "This can be configured using " ++ uastMaxBlobSizeKey ++ " environment variable"

/-- What one `uastFunc.Eval` call produces: the returned value, the tree
cache it leaves behind, the warnings it emitted, and the parse requests
it issued. -/
structure EvalOut where
  result : Except String (Option (List Node))
  cache : Cache
  warnings : List String
  parseReqs : List ParseReq

/-- `uastFunc.Eval` (uast.go lines 175-246), from the point where the
mode is parsed and the blob argument evaluated: a null blob or empty
content yields null; content longer than a non-negative configured
ceiling yields null with a warning and no parser contact; otherwise the
language is lowercased and `getUAST` runs. -/
def uastFuncEval (maxBlobSize : Int) (env : UastEnv) (cache : Cache)
    (mode : Mode) (blob : Option Bytes) (lang xpath : String) : EvalOut :=
  match blob with
  | none => ⟨.ok none, cache, [], []⟩
  | some bytes =>
    if bytes.length = 0 then ⟨.ok none, cache, [], []⟩
    else if 0 ≤ maxBlobSize ∧ maxBlobSize < (bytes.length : Int) then
      ⟨.ok none, cache, [oversizeWarning], []⟩
    else
      let lang := goToLower lang
      let out := getUAST env cache bytes lang xpath mode
      ⟨out.result, out.cache, [], out.parseReqs⟩

/-! ## The standalone uast_xpath function
(`UASTXPath.Eval`, uast.go lines 437-481) -/

/-- The loop of `UASTXPath.Eval` (uast.go lines 470-478): apply the
external evaluator to every input node, appending the partial results;
an evaluator error aborts the loop and is returned. -/
def applyXPathAll (ev : Node → String → Except String (List Node))
    (ns : List Node) (xpath : String) : Except String (List Node) :=
  match ns with
  | [] => .ok []
  | n :: rest =>
    match ev n xpath with
    | .error e => .error e
    | .ok matched =>
      match applyXPathAll ev rest xpath with
      | .error e => .error e
      | .ok tail => .ok (matched ++ tail)

/-- `UASTXPath.Eval` (uast.go lines 437-481), from the point where the
query string and the first argument are evaluated; the first argument
arrives as the decoded node sequence (`getNodes`), or `none` when it was
null.  An empty query returns null at once; a null first argument
returns null; otherwise every node is filtered by the external
evaluator, whose error is returned to the caller, and the concatenated
matches are marshalled. -/
def uastXPathEval (ev : Node → String → Except String (List Node))
    (ns : Option (List Node)) (xpath : String) :
    Except String (Option (List Node)) :=
  if xpath = "" then .ok none
  else
    match ns with
    | none => .ok none
    | some ns =>
      match applyXPathAll ev ns xpath with
      | .error e => .error e
      | .ok filtered => .ok (marshalNodes filtered)

/-! ## Property extraction (`UASTExtract` and helpers,
uast.go lines 561-670) -/

/-- `uast.KeyType` from the bblfsh SDK. -/
def KeyType : String := "@type"

/-- `uast.KeyToken` from the bblfsh SDK. -/
def KeyToken : String := "@token"

/-- `uast.KeyRoles` from the bblfsh SDK. -/
def KeyRoles : String := "@role"

/-- `uast.KeyPos` from the bblfsh SDK. -/
def KeyPos : String := "@pos"

/-- `isCommonProp` (uast.go lines 577-580). -/
def isCommonProp (key : String) : Bool :=
  key = KeyType ∨ key = KeyToken ∨ key = KeyRoles ∨ key = KeyPos

/-- The position data of a node, `uast.Positions` from the bblfsh SDK;
its internals are opaque to the source under scrutiny. -/
structure Positions where
  entries : List (String × Nat × Nat × Nat)

/-- The dedicated accessors of the bblfsh SDK used by
`extractCommonProp`: the node's type, its token, its role names (already
through `role.String()`), its position data if any, and the JSON
encoding of position data (`json.Marshal`, `none` on an encoding
error). -/
structure UastSDK where
  typeOf : Obj → String
  tokenOf : Obj → String
  rolesOf : Obj → List String
  positionsOf : Obj → Option Positions
  posJSON : Positions → Option String

/-- `posToString` (uast.go lines 617-623): the JSON encoding of the
position data, or the empty string when encoding fails. -/
def posToString (sdk : UastSDK) (pos : Positions) : String :=
  match sdk.posJSON pos with
  | some s => s
  | none => ""

/-- `extractCommonProp` (uast.go lines 582-615): the four common keys go
through the dedicated accessors; type and token are appended only when
non-empty, role names are appended when there is at least one, and the
position data is appended as its JSON string when present and
non-empty. -/
def extractCommonProp (sdk : UastSDK) (node : Obj) (key : String) : List String :=
  if key = KeyType then
    let t := sdk.typeOf node
    if t ≠ "" then [t] else []
  else if key = KeyToken then
    let t := sdk.tokenOf node
    if t ≠ "" then [t] else []
  else if key = KeyRoles then
    let r := sdk.rolesOf node
    if r.length > 0 then r else []
  else if key = KeyPos then
    match sdk.positionsOf node with
    | some p =>
      let s := posToString sdk p
      if s ≠ "" then [s] else []
    | none => []
  else []

/-- `valueToString` (uast.go lines 668-670): `sql.Text.Convert` of the
scalar's native value, its decimal/string form. -/
def valueToString (n : Node) : Option String :=
  match n with
  | .str s => some s
  | .intV i => some (toString i)
  | .boolV b => some (toString b)
  | _ => none

/-- `valuesFromNodeArray` (uast.go lines 652-666): the string form of
every scalar element of the array, in order; non-scalar elements are
skipped. -/
def valuesFromNodeArray (arr : List Node) : List String :=
  match arr with
  | [] => []
  | n :: rest =>
    match valueToString n with
    | some s => s :: valuesFromNodeArray rest
    | none => valuesFromNodeArray rest

/-- `extractAnyProp` (uast.go lines 625-650): look the key up in the
object; a missing key or a nil value yields nothing, a scalar value
yields its string form, an array yields the string forms of its scalar
elements, and any other shape yields nothing. -/
def extractAnyProp (node : Obj) (key : String) : List String :=
  match lookupObj node key with
  | none => []
  | some v =>
    match v with
    | .nilN => []
    | .str s => [s]
    | .intV i => [toString i]
    | .boolV b => [toString b]
    | .arr ns => valuesFromNodeArray ns
    | .obj _ => []

/-- `extractProperties` (uast.go lines 561-575): a non-object node
yields nothing; on an object, a common key goes through
`extractCommonProp` and any other key through `extractAnyProp`. -/
def extractProperties (sdk : UastSDK) (n : Node) (key : String) : List String :=
  match n with
  | .obj node =>
    if isCommonProp key then extractCommonProp sdk node key
    else extractAnyProp node key
  | _ => []

/-! ## Children flattening (`UASTChildren` and helpers,
uast.go lines 739-781) -/

/-- The body of the inner loop of `getChildren` over an array value
(uast.go lines 772-776): keep an element only when it is an object. -/
def getChildrenArrayStep (acc : List Node) (n : Node) : List Node :=
  match n with
  | .obj o => acc ++ [Node.obj o]
  | _ => acc

/-- The body of the key loop of `getChildren` (uast.go lines 758-778):
skip a common key, collect an object value directly, and collect the
object elements of an array value. -/
def getChildrenStep (children : List Node) (kv : String × Node) : List Node :=
  if isCommonProp kv.1 then children
  else
    match kv.2 with
    | .obj o => children ++ [Node.obj o]
    | .arr ns => children ++ ns.foldl getChildrenArrayStep []
    | _ => children

/-- `getChildren` (uast.go lines 756-781): walk the object's keys in
order, skip the common keys, collect an object value directly and, from
an array value, every element that is itself an object. -/
def getChildren (node : Obj) : List Node :=
  node.foldl getChildrenStep []

/-- The body of the loop of `flattenChildren` (uast.go lines 741-751):
skip a non-object input and append an object's children when there are
any. -/
def flattenChildrenStep (children : List Node) (n : Node) : List Node :=
  match n with
  | .obj o =>
    let c := getChildren o
    if c.length > 0 then children ++ c else children
  | _ => children

/-- `flattenChildren` (uast.go lines 739-754): skip non-object inputs
and concatenate each object's children. -/
def flattenChildren (arr : List Node) : List Node :=
  arr.foldl flattenChildrenStep []

/-- Whether a node is an object. -/
def isObjNode (n : Node) : Bool :=
  match n with
  | .obj _ => true
  | _ => false

/-- The children contributed by a single key/value entry, as the
specification words it: nothing for a common key, an object value
directly, the object elements of an array value in array order, nothing
otherwise. -/
def childrenOfEntry (kv : String × Node) : List Node :=
  if isCommonProp kv.1 then []
  else
    match kv.2 with
    | .obj c => [Node.obj c]
    | .arr ns => ns.filter isObjNode
    | _ => []

/-- The children contributed by one input node, as the specification
words it: per key in declared order; nothing for a non-object node. -/
def childrenOfNodeSpec (n : Node) : List Node :=
  match n with
  | .obj o => o.flatMap childrenOfEntry
  | _ => []

/-- The children-flattening operation as the specification words it: per
input node in order, per key in declared order skipping the four common
keys, object children directly and, per array value, its object elements
in array order, dropping the rest. -/
def flattenChildrenSpec (arr : List Node) : List Node :=
  arr.flatMap childrenOfNodeSpec

/-! ## Panic boundaries at the evaluation entry points

Each public `Eval` method may run user-triggered work that panics; the
source wraps most of them in a `defer`red `recover` that turns the panic
into a returned error.  A method body is modelled by its outcome: a
value, a returned error, or a panic carrying its message. -/

/-- The outcome of running an `Eval` body. -/
inductive Exec (α : Type) where
  | ok : α → Exec α
  | errored : String → Exec α
  | panicked : String → Exec α

/-- The `defer`/`recover` wrapper of `uastFunc.Eval` (uast.go lines
176-180): a panic becomes the returned error `uast: unknown error: …`;
normal outcomes pass through. -/
def uastFuncEvalBoundary {α : Type} (body : Exec α) : Exec α :=
  match body with
  | .panicked msg => .errored ("uast: unknown error: " ++ msg)
  | other => other

/-- The `defer`/`recover` wrapper of `UASTXPath.Eval` (uast.go lines
438-442). -/
def uastXPathEvalBoundary {α : Type} (body : Exec α) : Exec α :=
  match body with
  | .panicked msg => .errored ("uastxpath: unknown error: " ++ msg)
  | other => other

/-- The `defer`/`recover` wrapper of `UASTExtract.Eval` (uast.go lines
518-522). -/
def uastExtractEvalBoundary {α : Type} (body : Exec α) : Exec α :=
  match body with
  | .panicked msg => .errored ("uast: unknown error: " ++ msg)
  | other => other

/-- The `defer`/`recover` wrapper of `UASTChildren.Eval` (uast.go lines
712-716). -/
def uastChildrenEvalBoundary {α : Type} (body : Exec α) : Exec α :=
  match body with
  | .panicked msg => .errored ("uast: unknown error: " ++ msg)
  | other => other

/-- `UASTImports.Eval` (uast.go lines 802-832) installs no `recover`:
whatever its body does is what the caller sees, a panic included. -/
def uastImportsEvalBoundary {α : Type} (body : Exec α) : Exec α :=
  body

/-! ## Concrete instances used by witnesses and counterexamples -/

/-- An xpath evaluator that fails on every query. -/
def evAlwaysErr : Node → String → Except String (List Node) :=
  fun _ _ => .error "malformed query"

/-- An xpath evaluator that returns its input node unchanged. -/
def evIdent : Node → String → Except String (List Node) :=
  fun n _ => .ok [n]

/-- An environment whose parser always reports a syntax error (a soft
failure). -/
def envSoft : UastEnv := ⟨fun _ _ _ => .soft "syntax error", evIdent⟩

/-- An environment whose parser fails on every query and whose evaluator
errors. -/
def envSoftErr : UastEnv := ⟨fun _ _ _ => .soft "syntax error", evAlwaysErr⟩

/-- A singleton cache serves its own key. -/
theorem cacheGet_singleton (k : Nat) (v : Node) : cacheGet [(k, v)] k = some v := by
  simp [cacheGet]

/-! ## Helper lemmas for the children-flattening proof -/

/-- The inner loop of `getChildren` over an array value collects exactly
the object elements, in order, onto the accumulator. -/
theorem getChildrenArray_go (ns : List Node) (acc : List Node) :
    ns.foldl getChildrenArrayStep acc = acc ++ ns.filter isObjNode := by
  induction ns generalizing acc with
  | nil => simp
  | cons hd tl ih =>
    cases hd <;> simp [getChildrenArrayStep, isObjNode, List.filter, ih]

/-- One key-loop step of `getChildren` appends exactly the entry's
specified children. -/
theorem getChildrenStep_eq (children : List Node) (kv : String × Node) :
    getChildrenStep children kv = children ++ childrenOfEntry kv := by
  by_cases hc : isCommonProp kv.1
  · simp [getChildrenStep, childrenOfEntry, hc]
  · cases h2 : kv.2 <;>
      simp [getChildrenStep, childrenOfEntry, hc, h2, getChildrenArray_go]

/-- The key loop of `getChildren` onto an accumulator. -/
theorem getChildren_go (o : Obj) (acc : List Node) :
    o.foldl getChildrenStep acc = acc ++ o.flatMap childrenOfEntry := by
  induction o generalizing acc with
  | nil => simp
  | cons hd tl ih =>
    rw [List.foldl_cons, getChildrenStep_eq, ih]
    simp

/-- `getChildren` agrees with the specification's per-node description. -/
theorem getChildren_eq_spec (o : Obj) :
    getChildren o = o.flatMap childrenOfEntry := by
  simpa [getChildren] using getChildren_go o []

/-- One loop step of `flattenChildren` appends exactly the node's
specified children. -/
theorem flattenChildrenStep_eq (children : List Node) (n : Node) :
    flattenChildrenStep children n = children ++ childrenOfNodeSpec n := by
  cases n with
  | obj o =>
    have hspec : childrenOfNodeSpec (Node.obj o) = getChildren o := by
      rw [getChildren_eq_spec]; rfl
    rw [hspec]
    show (if (getChildren o).length > 0 then children ++ getChildren o else children)
        = children ++ getChildren o
    cases hg : getChildren o with
    | nil => simp
    | cons a l => simp
  | arr ns => simp [flattenChildrenStep, childrenOfNodeSpec]
  | str s => simp [flattenChildrenStep, childrenOfNodeSpec]
  | intV i => simp [flattenChildrenStep, childrenOfNodeSpec]
  | boolV b => simp [flattenChildrenStep, childrenOfNodeSpec]
  | nilN => simp [flattenChildrenStep, childrenOfNodeSpec]

/-- The loop of `flattenChildren` onto an accumulator. -/
theorem flattenChildren_go (arr : List Node) (acc : List Node) :
    arr.foldl flattenChildrenStep acc = acc ++ flattenChildrenSpec arr := by
  induction arr generalizing acc with
  | nil => simp [flattenChildrenSpec]
  | cons hd tl ih =>
    rw [List.foldl_cons, flattenChildrenStep_eq, ih]
    simp [flattenChildrenSpec]

/-! ## Claim theorems -/

/-- Claim C7: `uast_children` enumerates each object node's keys in
declaration order, skips the four common keys, collects object-valued
children directly and, for array-valued children, every array element
that is itself an object while dropping the rest; result order is per
input node, per key, per array element. -/
theorem uastChildrenFlatteningMatchesSpec (arr : List Node) :
    flattenChildren arr = flattenChildrenSpec arr := by
  simpa [flattenChildren] using flattenChildren_go arr []

/-- Claim C8: the fingerprint computation is deterministic: whatever
state the shared 64-bit hash object is in, the key computed for a
`(mode, language, content)` triple is the same 64-bit value. -/
theorem computeKeyDeterministic (h₁ h₂ : Hash64) (mode lang : String) (blob : Bytes) :
    (computeKeyH h₁ mode lang blob).1 = (computeKeyH h₂ mode lang blob).1 ∧
    (computeKeyH h₁ mode lang blob).1 = computeKey mode lang blob ∧
    computeKey mode lang blob < 2 ^ 64 := by
  refine ⟨rfl, rfl, ?_⟩
  have : (computeKeyH ⟨0⟩ mode lang blob).1
      = hashSum64 (hashWrite (hashWrite (hashWrite (hashReset ⟨0⟩) (strBytes mode))
          (strBytes lang)) blob) := rfl
  rw [computeKey, this, hashSum64]
  exact Nat.mod_lt _ (by norm_num)

/-- The fingerprint of the empty request used by concrete witnesses. -/
def keyW : Nat := computeKey Mode.semantic.str "" []

/-- A one-entry cache holding a nil tree under `keyW`. -/
def cacheW : Cache := [(keyW, Node.nilN)]

/-- Claim C1 counterexample: the standalone `uast_xpath` function does
propagate a path-query evaluator error to the caller (uast.go line 474),
instead of resolving it to null. -/
theorem uastXPathPropagatesEvaluatorError :
    uastXPathEval evAlwaysErr (some [Node.nilN]) "//x" = .error "malformed query" := by
  simp [uastXPathEval, applyXPathAll, evAlwaysErr]

/-- Claim C1 (amended): inside uast/uast_mode (`uastFunc.getUAST`), a
path-query evaluator error is resolved to a null result with no error,
on the cache-hit path and on the freshly-parsed path alike; the
standalone `uast_xpath` function instead propagates the evaluator's
error. -/
theorem getUASTResolvesXPathErrorToNull (env : UastEnv) (cache : Cache)
    (blob : Bytes) (lang xpath : String) (mode : Mode) (node : Node) (e : String)
    (hx : xpath ≠ "") (herr : env.xpath node xpath = .error e) :
    (cacheGet cache (computeKey mode.str lang blob) = some node →
      getUAST env cache blob lang xpath mode = ⟨.ok none, cache, []⟩) ∧
    (cacheGet cache (computeKey mode.str lang blob) = none →
      env.parse blob lang mode = .parsed node →
      getUAST env cache blob lang xpath mode
        = ⟨.ok none, cachePut cache (computeKey mode.str lang blob) node,
            [(blob, lang, mode)]⟩) := by
  constructor
  · intro hhit
    unfold getUAST
    simp only [hhit]
    simp [filterByXPath, hx, herr]
  · intro hmiss hparsed
    unfold getUAST
    simp only [hmiss, hparsed]
    simp [filterByXPath, hx, herr]

/-- Claim C1 witness: a concrete cache-hit evaluation whose evaluator
fails resolves to null. -/
theorem getUASTResolvesXPathErrorToNull_witness :
    getUAST envSoftErr cacheW [] "" "//x" Mode.semantic = ⟨.ok none, cacheW, []⟩ :=
  (getUASTResolvesXPathErrorToNull envSoftErr cacheW [] "" "//x" Mode.semantic
      Node.nilN "malformed query" (by decide) rfl).1
    (cacheGet_singleton keyW Node.nilN)

/-- Claim C2: a soft parse failure (no recognized syntax or a syntax
error) makes `getUAST` return null with no error and leave the cache
untouched, so resolving the same `(content, language, mode)` again calls
the external parser again. -/
theorem getUASTSoftFailureUncached (env : UastEnv) (cache : Cache) (blob : Bytes)
    (lang xpath : String) (mode : Mode) (msg : String)
    (hmiss : cacheGet cache (computeKey mode.str lang blob) = none)
    (hsoft : env.parse blob lang mode = .soft msg) :
    getUAST env cache blob lang xpath mode
        = ⟨.ok none, cache, [(blob, lang, mode)]⟩ ∧
    (getUAST env (getUAST env cache blob lang xpath mode).cache blob
        lang xpath mode).parseReqs = [(blob, lang, mode)] := by
  have h1 : getUAST env cache blob lang xpath mode
      = ⟨.ok none, cache, [(blob, lang, mode)]⟩ := by
    unfold getUAST
    simp only [hmiss, hsoft]
  refine ⟨h1, ?_⟩
  rw [h1]
  show (getUAST env cache blob lang xpath mode).parseReqs = [(blob, lang, mode)]
  rw [h1]

/-- Claim C2 witness: a concrete syntax-error parse yields null, leaves
the empty cache empty, and is re-issued on the second resolution. -/
theorem getUASTSoftFailureUncached_witness :
    getUAST envSoft [] [] "" "" Mode.semantic
        = ⟨.ok none, [], [([], "", Mode.semantic)]⟩ ∧
    (getUAST envSoft (getUAST envSoft [] [] "" "" Mode.semantic).cache [] ""
        "" Mode.semantic).parseReqs = [([], "", Mode.semantic)] :=
  getUASTSoftFailureUncached envSoft [] [] "" "" Mode.semantic "syntax error" rfl rfl

/-- Claim C3: content longer than a non-negative configured ceiling
yields null with a warning that names `GITBASE_MAX_UAST_BLOB_SIZE`, and
the external parser is never invoked; a negative ceiling disables the
check, so content of any length reaches the parser; the default ceiling
is 5 MB. -/
theorem uastEvalOversizeGuard (env : UastEnv) (cache : Cache) (mode : Mode)
    (bytes : Bytes) (lang xpath : String) (maxBlobSize : Int) :
    (0 ≤ maxBlobSize → maxBlobSize < (bytes.length : Int) →
      uastFuncEval maxBlobSize env cache mode (some bytes) lang xpath
        = ⟨.ok none, cache, [oversizeWarning], []⟩) ∧
    oversizeWarning
      = "uast will be skipped, file is too big to send to bblfsh." ++
          "This can be configured using " ++ uastMaxBlobSizeKey ++
          " environment variable" ∧
    (maxBlobSize < 0 → bytes ≠ [] →
      cacheGet cache (computeKey mode.str (goToLower lang) bytes) = none →
      (uastFuncEval maxBlobSize env cache mode (some bytes) lang xpath).parseReqs
        = [(bytes, goToLower lang, mode)]) ∧
    initUASTMaxBlobSize "" = 5 * 1024 * 1024 := by
  refine ⟨?_, rfl, ?_, by decide⟩
  · intro h0 hover
    have hlen : ¬bytes.length = 0 := by
      intro hz
      rw [hz] at hover
      omega
    simp only [uastFuncEval]
    rw [if_neg hlen, if_pos (And.intro h0 hover)]
  · intro hneg hne hmiss
    have hlen : ¬bytes.length = 0 := by
      intro hz
      exact hne (List.length_eq_zero.mp hz)
    have hcond : ¬(0 ≤ maxBlobSize ∧ maxBlobSize < (bytes.length : Int)) := by
      rintro ⟨h1, _⟩
      omega
    simp only [uastFuncEval]
    rw [if_neg hlen, if_neg hcond]
    show (getUAST env cache bytes (goToLower lang) xpath mode).parseReqs
        = [(bytes, goToLower lang, mode)]
    unfold getUAST
    simp only [hmiss]
    cases hp : env.parse bytes (goToLower lang) mode <;> simp [hp]

/-- Claim C3 witness: with ceiling 1, two bytes of content yield null,
the warning, and no parse request; with ceiling -1 the same content is
sent to the parser. -/
theorem uastEvalOversizeGuard_witness :
    uastFuncEval 1 envSoft [] Mode.semantic (some [0, 0]) "" ""
        = ⟨.ok none, [], [oversizeWarning], []⟩ ∧
    (uastFuncEval (-1) envSoft [] Mode.semantic (some [0, 0]) "" "").parseReqs
        = [([0, 0], goToLower "", Mode.semantic)] :=
  ⟨(uastEvalOversizeGuard envSoft [] Mode.semantic [0, 0] "" "" 1).1
      (by decide) (by decide),
    (uastEvalOversizeGuard envSoft [] Mode.semantic [0, 0] "" "" (-1)).2.2.1
      (by decide) (by decide) rfl⟩

/-- Claim C4 counterexample: the standalone `uast_xpath` function
returns null on an empty query expression (uast.go lines 452-454)
without even evaluating its first argument, not the input node wrapped
as a one-element sequence. -/
theorem uastXPathEmptyQueryYieldsNull :
    uastXPathEval evIdent (some [Node.nilN]) "" = .ok none ∧
    (Except.ok (marshalNodes [Node.nilN]) : Except String (Option (List Node)))
      ≠ .ok none := by
  refine ⟨rfl, ?_⟩
  simp [marshalNodes]

/-- Claim C4 (amended): inside uast/uast_mode the empty query expression
is an identity filter that wraps the tree as a one-element sequence;
the standalone `uast_xpath` function instead resolves an empty query to
null. -/
theorem emptyQueryIdentityInUastFunc (env : UastEnv) (cache : Cache)
    (blob : Bytes) (lang : String) (mode : Mode) (node : Node)
    (hhit : cacheGet cache (computeKey mode.str lang blob) = some node) :
    getUAST env cache blob lang "" mode = ⟨.ok (some [node]), cache, []⟩ ∧
    (∀ ev n, filterByXPath ev n "" = some [n]) ∧
    (∀ ev ns, uastXPathEval ev ns "" = .ok none) := by
  refine ⟨?_, fun ev n => rfl, fun ev ns => rfl⟩
  unfold getUAST
  simp only [hhit]
  simp [filterByXPath, marshalNodes]

/-- Claim C4 witness: a concrete cache-hit evaluation with the empty
query returns exactly the cached node wrapped singly. -/
theorem emptyQueryIdentityInUastFunc_witness :
    getUAST envSoft cacheW [] "" "" Mode.semantic
      = ⟨.ok (some [Node.nilN]), cacheW, []⟩ :=
  (emptyQueryIdentityInUastFunc envSoft cacheW [] "" Mode.semantic Node.nilN
      (cacheGet_singleton keyW Node.nilN)).1

/-- Claim C5 counterexample: `UASTImports.Eval` installs no recover
boundary, so a panic raised while it evaluates reaches the caller
untouched instead of being converted into an error value. -/
theorem uastImportsPanicUncaught :
    @uastImportsEvalBoundary (List Node) (.panicked "invariant violation")
      = Exec.panicked "invariant violation" := rfl

/-- Claim C5 (amended): of the six public evaluation operations, the
five implemented by `uastFunc.Eval` (uast, uast_mode), `UASTXPath.Eval`,
`UASTExtract.Eval` and `UASTChildren.Eval` convert a panic raised during
evaluation into a returned error value, and pass normal outcomes
through; `UASTImports.Eval` has no such boundary. -/
theorem panicBoundariesAllButImports (α : Type) (msg : String) :
    @uastFuncEvalBoundary α (.panicked msg)
        = .errored ("uast: unknown error: " ++ msg) ∧
    @uastXPathEvalBoundary α (.panicked msg)
        = .errored ("uastxpath: unknown error: " ++ msg) ∧
    @uastExtractEvalBoundary α (.panicked msg)
        = .errored ("uast: unknown error: " ++ msg) ∧
    @uastChildrenEvalBoundary α (.panicked msg)
        = .errored ("uast: unknown error: " ++ msg) ∧
    @uastImportsEvalBoundary α (.panicked msg) = .panicked msg ∧
    (∀ a : α,
      uastFuncEvalBoundary (.ok a) = .ok a ∧
      uastXPathEvalBoundary (.ok a) = .ok a ∧
      uastExtractEvalBoundary (.ok a) = .ok a ∧
      uastChildrenEvalBoundary (.ok a) = .ok a) :=
  ⟨rfl, rfl, rfl, rfl, rfl, fun _ => ⟨rfl, rfl, rfl, rfl⟩⟩

/-- Claim C6: property extraction on an object node: `@type` and
`@token` yield at most one string, omitted when the accessor returns the
empty string; `@role` yields the role names in order; `@pos` yields the
JSON string of the position data when present (and encodable,
non-empty), nothing when absent; an absent non-common key, or one
mapping to a nil or object value, yields the empty result — never an
error. -/
theorem uastExtractPropertySemantics (sdk : UastSDK) (o : Obj) :
    extractProperties sdk (Node.obj o) KeyType
        = (if sdk.typeOf o = "" then [] else [sdk.typeOf o]) ∧
    extractProperties sdk (Node.obj o) KeyToken
        = (if sdk.tokenOf o = "" then [] else [sdk.tokenOf o]) ∧
    extractProperties sdk (Node.obj o) KeyRoles = sdk.rolesOf o ∧
    (sdk.positionsOf o = none →
      extractProperties sdk (Node.obj o) KeyPos = []) ∧
    (∀ p s, sdk.positionsOf o = some p → sdk.posJSON p = some s → s ≠ "" →
      extractProperties sdk (Node.obj o) KeyPos = [s]) ∧
    (∀ key, isCommonProp key = false → lookupObj o key = none →
      extractProperties sdk (Node.obj o) key = []) ∧
    (∀ key c, isCommonProp key = false → lookupObj o key = some (Node.obj c) →
      extractProperties sdk (Node.obj o) key = []) ∧
    (∀ key, isCommonProp key = false → lookupObj o key = some Node.nilN →
      extractProperties sdk (Node.obj o) key = []) := by
  refine ⟨?_, ?_, ?_, ?_, ?_, ?_, ?_, ?_⟩
  · by_cases h : sdk.typeOf o = "" <;>
      simp [extractProperties, extractCommonProp, isCommonProp,
        KeyType, KeyToken, KeyRoles, KeyPos, h]
  · by_cases h : sdk.tokenOf o = "" <;>
      simp [extractProperties, extractCommonProp, isCommonProp,
        KeyType, KeyToken, KeyRoles, KeyPos, h]
  · cases hr : sdk.rolesOf o <;>
      simp [extractProperties, extractCommonProp, isCommonProp,
        KeyType, KeyToken, KeyRoles, KeyPos, hr]
  · intro hp
    simp [extractProperties, extractCommonProp, isCommonProp,
      KeyType, KeyToken, KeyRoles, KeyPos, hp]
  · intro p s hp hj hs
    simp [extractProperties, extractCommonProp, isCommonProp,
      KeyType, KeyToken, KeyRoles, KeyPos, hp, posToString, hj, hs]
  · intro key hkey hlook
    simp [extractProperties, hkey, extractAnyProp, hlook]
  · intro key c hkey hlook
    simp [extractProperties, hkey, extractAnyProp, hlook]
  · intro key hkey hlook
    simp [extractProperties, hkey, extractAnyProp, hlook]

/-- The concrete accessors of the witness node: type `Identifier`,
token `x`, roles `Expression` and `Identifier`, no position data. -/
def sdkW : UastSDK :=
  ⟨fun _ => "Identifier", fun _ => "x",
    fun _ => ["Expression", "Identifier"], fun _ => none, fun _ => none⟩

/-- Claim C6 witness: concrete extractions of type, roles and an absent
key. -/
theorem uastExtractPropertySemantics_witness :
    extractProperties sdkW (Node.obj []) KeyType = ["Identifier"] ∧
    extractProperties sdkW (Node.obj []) KeyRoles = ["Expression", "Identifier"] ∧
    extractProperties sdkW (Node.obj []) "doc" = [] := by
  obtain ⟨h1, _, h3, _, _, h6, _, _⟩ := uastExtractPropertySemantics sdkW []
  refine ⟨?_, ?_, h6 "doc" (by decide) rfl⟩
  · simpa [sdkW] using h1
  · simpa [sdkW] using h3

/-- Claim C9: the tree-cache capacity is parsed at process start with
default 10000, every invalid or non-positive override falling back to
the default; the cache is created lazily, only when the slot is empty,
and a later call returns the existing cache with the slot unchanged
(never disposed). -/
theorem cacheSizeConfigAndLazyCreation (κ : Type) (s : String) (n : Int)
    (mk : Int → κ) (size : Int) (c : κ) :
    initUASTCacheSize "" = 10000 ∧
    (goAtoi s = none → initUASTCacheSize s = 10000) ∧
    (goAtoi s = some n → n ≤ 0 → initUASTCacheSize s = 10000) ∧
    (goAtoi s = some n → 0 < n → initUASTCacheSize s = n) ∧
    getUASTCacheOnce (none : Option κ) mk size = (mk size, some (mk size)) ∧
    getUASTCacheOnce (some c) mk size = (c, some c) := by
  refine ⟨by decide, ?_, ?_, ?_, rfl, rfl⟩
  · intro h
    simp [initUASTCacheSize, h, defaultUASTCacheSize]
  · intro h hle
    simp [initUASTCacheSize, h, if_pos hle, defaultUASTCacheSize]
  · intro h hpos
    simp [initUASTCacheSize, h]
    omega

/-- Claim C9 witness: a valid positive override is kept, a negative and
a malformed override fall back to the default. -/
theorem cacheSizeConfigAndLazyCreation_witness :
    initUASTCacheSize "7" = 7 ∧
    initUASTCacheSize "-3" = 10000 ∧
    initUASTCacheSize "abc" = 10000 :=
  ⟨(cacheSizeConfigAndLazyCreation Nat "7" 7 (fun _ => 0) 0 0).2.2.2.1 (by decide) (by decide),
    (cacheSizeConfigAndLazyCreation Nat "-3" (-3) (fun _ => 0) 0 0).2.2.1 (by decide) (by decide),
    (cacheSizeConfigAndLazyCreation Nat "abc" 0 (fun _ => 0) 0 0).2.1 (by decide)⟩

/-- Claim C10: `uastFunc.Eval` lowercases the language before
fingerprinting and contacting the parser, so two language arguments with
the same lowercase form give identical evaluations — in particular the
same cache key and the same parse request. -/
theorem evalLanguageCaseInsensitive (maxBlobSize : Int) (env : UastEnv)
    (cache : Cache) (mode : Mode) (bytes : Bytes) (l₁ l₂ xpath : String)
    (h : goToLower l₁ = goToLower l₂) :
    uastFuncEval maxBlobSize env cache mode (some bytes) l₁ xpath
      = uastFuncEval maxBlobSize env cache mode (some bytes) l₂ xpath ∧
    computeKey mode.str (goToLower l₁) bytes
      = computeKey mode.str (goToLower l₂) bytes := by
  constructor
  · unfold uastFuncEval
    rw [h]
  · rw [h]

/-- Claim C10 witness: `GO` and `go` produce the same evaluation and the
same fingerprint. -/
theorem evalLanguageCaseInsensitive_witness :
    uastFuncEval 100 envSoft [] Mode.semantic (some [1]) "GO" ""
      = uastFuncEval 100 envSoft [] Mode.semantic (some [1]) "go" "" :=
  (evalLanguageCaseInsensitive 100 envSoft [] Mode.semantic [1] "GO" "go" ""
    (by decide)).1

end Gitbase
